import Mathlib

/-!
Verification development for the Weaviate collection batch-fix tool
(`batch_fix_weaviate.py`).

The script reconciles Weaviate vector collections against the Dify dataset
registry (PostgreSQL) and repairs collections created under the obsolete
schema dialect.  We shallowly embed the reconciliation and repair core:

* raw schema documents become association lists over a small JSON-like
  value type `JVal`;
* Python string operations (`str.replace`, `str.split`, `str.lower`,
  `str.startswith`, `str.endswith`, `"-".join`) become executable
  functions on `List Char`, mirroring Python semantics for the non-empty
  patterns used by the script;
* the remote collaborators (Weaviate HTTP endpoints, the PostgreSQL
  registry, the interactive confirmation prompt) become explicit
  environment records, and the operations return the list of remote calls
  and printed report lines they would issue, so temporal ordering and
  gating properties are statements about concrete traces.
-/

/-- JSON-like values, enough structure for the schema documents the script
manipulates: strings, integers, objects (ordered key/value association
lists, as Python `dict` preserves insertion order), and arrays. -/
inductive JVal where
  | jstr : String → JVal
  | jnum : Int → JVal
  | jobj : List (String × JVal) → JVal
  | jarr : List JVal → JVal

/-- A raw schema document: a top-level JSON object, as returned by
`GET /v1/schema` for each class. -/
abbrev Schema := List (String × JVal)

/-! ## Python string primitives on `List Char`

The script relies on `str.replace` (which removes **all** occurrences of
the pattern, scanning left to right, non-overlapping), `str.split` with a
single-character separator, `"-".join`, `str.lower`, `str.startswith`,
and `str.endswith`.  We implement these on `List Char`; fuel makes the
replace loop structurally recursive so every definition reduces inside
the kernel. -/

/-- One pass of Python `str.replace`: scan left to right, and each time
`pat` is a prefix of the remaining input, emit `rep` and skip `pat`.
The fuel bounds the number of scan steps; `fuel ≥ length` is always
enough because every step consumes at least one character (all patterns
used by the script are non-empty). -/
def replaceAllF (pat rep : List Char) : Nat → List Char → List Char
  | _, [] => []
  | 0, c :: rest => c :: rest
  | fuel + 1, c :: rest =>
    if pat.isPrefixOf (c :: rest) then
      rep ++ replaceAllF pat rep fuel (List.drop pat.length (c :: rest))
    else
      c :: replaceAllF pat rep fuel rest

/-- Python `s.replace(pat, rep)` for non-empty `pat`. -/
def replaceAll (pat rep l : List Char) : List Char :=
  replaceAllF pat rep l.length l

/-- Helper for `splitSep`: prepend a character to the first group. -/
def consHead (c : Char) : List (List Char) → List (List Char)
  | [] => [[c]]
  | g :: gs => (c :: g) :: gs

/-- Python `s.split(sep)` for a single-character separator:
`splitSep '_' "a__b" = ["a", "", "b"]` and `splitSep '_' "" = [""]`. -/
def splitSep (sep : Char) : List Char → List (List Char)
  | [] => [[]]
  | c :: rest =>
    if c = sep then [] :: splitSep sep rest else consHead c (splitSep sep rest)

/-- Python `sep.join(groups)` for a single-character separator. -/
def joinSep (sep : Char) : List (List Char) → List Char
  | [] => []
  | [g] => g
  | g :: g' :: gs => g ++ sep :: joinSep sep (g' :: gs)

/-- Python `s.lower()` (the script only compares against the ASCII
answer `"yes"`, for which `Char.toLower` agrees with Python). -/
def lowerStr (s : String) : String :=
  String.mk (s.data.map Char.toLower)

/-- All suffixes of a list, longest first (including the list itself and
`[]`). Used to state occurrence conditions for `replaceAll`. -/
def suffixesL : List Char → List (List Char)
  | [] => [[]]
  | c :: rest => (c :: rest) :: suffixesL rest

/-- `pat` occurs nowhere in `l` (no suffix of `l` starts with `pat`). -/
def noOccB (pat l : List Char) : Bool :=
  (suffixesL l).all (fun t => !pat.isPrefixOf t)

/-- Every occurrence of `pat` in `l` is the occurrence at the very end:
any suffix of `l` that starts with `pat` is `pat` itself. -/
def onlyEndOccB (pat l : List Char) : Bool :=
  (suffixesL l).all (fun t => !pat.isPrefixOf t || t == pat)

/-- The fixed name prefix `"Vector_index_"` of managed collections. -/
def pfxVI : List Char := "Vector_index_".data

/-- The fixed name suffix `"_Node"` of managed collections. -/
def sfxNode : List Char := "_Node".data

/-! ## Schema document accessors (source: `batch_fix_weaviate.py`) -/

/-- Python `key in doc` for a JSON object. -/
def hasKey (doc : Schema) (k : String) : Bool :=
  doc.any (fun kv => kv.1 == k)

/-- Python `doc.get(key)`: the value stored under `k`, if any (JSON
objects have unique keys; an association list returns the first hit). -/
def lookupKey (doc : Schema) (k : String) : Option JVal :=
  (doc.find? (fun kv => kv.1 == k)).map (fun kv => kv.2)

/-- Python `collection.get("class", "")`.  The remote service always
returns a string class name; a non-string value degrades to `""` (where
Python would fail later on `startswith`, never exercised). -/
def getClass (c : Schema) : String :=
  match lookupKey c "class" with
  | some (JVal.jstr s) => s
  | _ => ""

/-- Source `is_old_format` (line 150): the collection uses the legacy
dialect iff `"vectorConfig"` is absent and `"vectorIndexConfig"` is
present. -/
def is_old_format (c : Schema) : Bool :=
  !hasKey c "vectorConfig" && hasKey c "vectorIndexConfig"

/-- Source `is_dify_collection` (line 154): the name matches
`Vector_index_*_Node` (Python `startswith`/`endswith`). -/
def is_dify_collection (c : Schema) : Bool :=
  pfxVI.isPrefixOf (getClass c).data && sfxNode.isSuffixOf (getClass c).data

/-- Source `extract_dataset_id` (line 159): remove all occurrences of
`"Vector_index_"`, then all occurrences of `"_Node"` (Python
`str.replace`), split on `'_'`; with at least five parts, join the first
five with `'-'`, otherwise return the sentinel `"unknown"`. -/
def extract_dataset_id (class_name : String) : String :=
  let parts := splitSep '_' (replaceAll sfxNode [] (replaceAll pfxVI [] class_name.data))
  if 5 ≤ parts.length then String.mk (joinSep '-' (parts.take 5))
  else "unknown"

/-! ## Repair payload (source: `create_collection_new_format`, line 217) -/

/-- Source line 224: drop the `"description"` entry from one property
dict, keeping every other entry unchanged and in order. -/
def cleanProp : JVal → JVal
  | JVal.jobj fields => JVal.jobj (fields.filter (fun kv => kv.1 != "description"))
  | v => v

/-- Source line 219: `old_schema.get("properties", [])`.  The remote
service returns the property list as a JSON array; any other shape
degrades to `[]` (where Python would fail iterating, never exercised). -/
def getProps (old_schema : Schema) : List JVal :=
  match lookupKey old_schema "properties" with
  | some (JVal.jarr l) => l
  | _ => []

/-- The fixed `"vectorConfig"` block of the translated schema (source
lines 230-243): hnsw index, cosine distance, literal tuning constants,
external vectorization (`{"none": {}}`).  Built from configuration only,
never from the old schema. -/
def vcDefaultBlock : JVal :=
  JVal.jobj [("default", JVal.jobj
    [("vectorIndexType", JVal.jstr "hnsw"),
     ("vectorIndexConfig", JVal.jobj
       [("distance", JVal.jstr "cosine"),
        ("ef", JVal.jnum (-1)),
        ("efConstruction", JVal.jnum 128),
        ("maxConnections", JVal.jnum 32),
        ("cleanupIntervalSeconds", JVal.jnum 300),
        ("flatSearchCutoff", JVal.jnum 40000)]),
     ("vectorizer", JVal.jobj [("none", JVal.jobj [])])])]

/-- The translated schema document `new_schema` posted by
`create_collection_new_format` (source lines 227-244). -/
def new_schema (class_name : String) (old_schema : Schema) : Schema :=
  [("class", JVal.jstr class_name),
   ("properties", JVal.jarr ((getProps old_schema).map cleanProp)),
   ("vectorConfig", vcDefaultBlock)]

/-! ## Operation models

Each main operation is modelled as a function of an explicit environment
record standing for the remote collaborators (Weaviate, the PostgreSQL
registry, the console).  The functions return the structured results the
claims talk about, plus the trace of remote calls / report lines issued. -/

/-- Events observable in a repair run: the three remote schema calls of
`fix_single_collection` plus the report lines it prints. -/
inductive Ev where
  | fetchSchema : String → Ev
  | deleteColl : String → Ev
  | createColl : String → Schema → Ev
  | printed : String → Ev

/-- Remote-call events (everything except report lines). -/
def isRemote : Ev → Bool
  | Ev.printed _ => false
  | _ => true

/-- The remote calls of a trace, in order. -/
def remoteCalls (t : List Ev) : List Ev :=
  t.filter isRemote

/-- Outcome of the single-schema fetch `GET /v1/schema/{name}` in
`fix_single_collection`: a 200 response with a schema document, a
non-200 response with a body text, or a transport exception. -/
inductive FetchRes where
  | ok : Schema → FetchRes
  | httpErr : String → FetchRes
  | exc : String → FetchRes

/-- Remote environment of one `fix_single_collection` run: the fetch
outcome, whether `delete_collection` returns `True` (status 200/204),
whether the schema POST returns 200, and the response/exception text the
create step reports. -/
structure FixEnv where
  fetch : FetchRes
  deleteOk : Bool
  createOk : Bool
  createText : String

/-- Source `fix_single_collection` (lines 309-354): fetch the current
schema; skip (success) if it already has `"vectorConfig"`; in dry-run
stop before any destructive call; otherwise delete, then recreate with
`new_schema`.  Returns the Python boolean result and the full trace of
remote calls and printed report lines, in order. -/
def fix_single_collection (env : FixEnv) (class_name : String) (dry_run : Bool) :
    Bool × List Ev :=
  let pfx := if dry_run then "[DRY RUN] " else ""
  let hdr : List Ev :=
    [Ev.printed ("\n" ++ pfx ++ "Fixing: " ++ class_name),
     Ev.printed (String.mk (List.replicate 60 '-')),
     Ev.printed "1. Getting current schema...",
     Ev.fetchSchema class_name]
  match env.fetch with
  | FetchRes.httpErr text => (false, hdr ++ [Ev.printed ("   ❌ Failed: " ++ text)])
  | FetchRes.exc msg => (false, hdr ++ [Ev.printed ("   ❌ Error: " ++ msg)])
  | FetchRes.ok schema =>
    if hasKey schema "vectorConfig" then
      (true, hdr ++ [Ev.printed "   ✅ Already new format, skipping"])
    else if dry_run then
      (true, hdr ++ [Ev.printed "   [DRY RUN] Would delete and recreate collection"])
    else
      let t2 := hdr ++ [Ev.printed "2. Deleting old collection...", Ev.deleteColl class_name]
      if !env.deleteOk then
        (false, t2 ++ [Ev.printed "   ❌ Delete failed"])
      else
        let t3 := t2 ++
          [Ev.printed "   ✅ Deleted",
           Ev.printed "3. Creating new format collection...",
           Ev.createColl class_name (new_schema class_name schema)]
        if !env.createOk then
          (false, t3 ++ [Ev.printed ("   ❌ Create failed: " ++ env.createText)])
        else
          (true, t3 ++
            [Ev.printed "   ✅ Created",
             Ev.printed ("\n✅ " ++ class_name ++ " fixed successfully!"),
             Ev.printed "   ⚠️  Remember to re-embed in Dify!"])

/-- Environment of a `scan_collections` run: whether the readiness probe
succeeds and the class list returned by `GET /v1/schema`. -/
structure ScanEnv where
  connOk : Bool
  collections : List Schema

/-- Source `scan_collections` (lines 259-307): keep only Dify-named
collections and partition them by `is_old_format` into the
(`old_format`, `new_format`) buckets, preserving listing order.  The
name lookups and report printing do not affect the partition. -/
def scan_collections (env : ScanEnv) : List Schema × List Schema :=
  if !env.connOk then ([], [])
  else
    let dify := env.collections.filter is_dify_collection
    (dify.filter (fun c => is_old_format c), dify.filter (fun c => !is_old_format c))

/-- Environment of a `cleanup_orphaned` run: the readiness probe, the
class list, the registry read (`none` models a failed connection or
query, which the source converts to an empty id set), and the console
answer to the confirmation prompt. -/
structure CleanupEnv where
  connOk : Bool
  collections : List Schema
  db : Option (List String)
  confirm : String

/-- Source `get_all_dataset_ids_from_db` (lines 111-125): the dataset id
strings on success, and the empty set when the connection or the query
fails. -/
def get_all_dataset_ids_from_db (db : Option (List String)) : List String :=
  match db with
  | none => []
  | some ids => ids

/-- Source `cleanup_orphaned` (lines 421-487).  Returns the pair
(names of collections identified as orphaned, names for which a delete
call is issued), in listing order.  The function returns early — with
nothing identified and nothing deleted — when the readiness probe fails,
when the registry id set is empty (which covers a failed registry read),
or when no orphan remains; the delete loop runs only after the
confirmation answer lowercases to `"yes"`.  Python's id sets are
modelled by lists: only membership and emptiness are consumed. -/
def cleanup_orphaned (env : CleanupEnv) : List String × List String :=
  if !env.connOk then ([], [])
  else
    let dify := env.collections.filter is_dify_collection
    let weaviate_ids := dify.map (fun c => extract_dataset_id (getClass c))
    let db_ids := get_all_dataset_ids_from_db env.db
    if db_ids.isEmpty then ([], [])
    else
      let orphaned_ids := weaviate_ids.filter (fun i => !decide (i ∈ db_ids))
      if orphaned_ids.isEmpty then ([], [])
      else
        let orphaned := dify.filter
          (fun c => decide (extract_dataset_id (getClass c) ∈ orphaned_ids))
        let names := orphaned.map (fun c => getClass c)
        if lowerStr env.confirm ≠ "yes" then (names, [])
        else (names, names)

/-! ## Spec-side definition for the correlation-key refinement claim -/

/-- Strip one leading occurrence of the fixed prefix and one trailing
occurrence of the fixed suffix, when present.  This follows the spec's
words ("stripping the fixed prefix/suffix"), to be compared with the
source's `extract_dataset_id`, which removes **all** occurrences via
Python `str.replace`. -/
def stripOnce (n : List Char) : List Char :=
  let afterP := if pfxVI.isPrefixOf n then n.drop pfxVI.length else n
  if sfxNode.isSuffixOf afterP then afterP.take (afterP.length - sfxNode.length)
  else afterP

/-- Modelled from the spec: "a string derived deterministically from a
managed collection's name by stripping the fixed prefix/suffix and
re-joining the first five underscore-delimited remaining segments with
hyphens", with the `"unknown"` sentinel when fewer than five segments
remain. -/
def extract_dataset_id_spec (class_name : String) : String :=
  let parts := splitSep '_' (stripOnce class_name.data)
  if 5 ≤ parts.length then String.mk (joinSep '-' (parts.take 5))
  else "unknown"

/-! ## Lemmas about the string primitives -/

theorem isPrefixOf_append_self (l t : List Char) : l.isPrefixOf (l ++ t) = true := by
  induction l with
  | nil => cases t <;> rfl
  | cons c cs ih => simp [List.isPrefixOf, ih]

theorem isSuffixOf_append_self (t l : List Char) : t.isSuffixOf (l ++ t) = true := by
  simp only [List.isSuffixOf, List.reverse_append]
  exact isPrefixOf_append_self _ _

theorem noOccB_head (pat : List Char) (c : Char) (rest : List Char)
    (h : noOccB pat (c :: rest) = true) :
    pat.isPrefixOf (c :: rest) = false ∧ noOccB pat rest = true := by
  simp only [noOccB, suffixesL, List.all_cons, Bool.and_eq_true, Bool.not_eq_true'] at h
  exact ⟨h.1, by simp only [noOccB]; exact h.2⟩

theorem onlyEndOccB_head (pat : List Char) (c : Char) (rest : List Char)
    (h : onlyEndOccB pat (c :: rest) = true) :
    (pat.isPrefixOf (c :: rest) = true → c :: rest = pat) ∧ onlyEndOccB pat rest = true := by
  simp only [onlyEndOccB, suffixesL, List.all_cons, Bool.and_eq_true, Bool.or_eq_true,
    Bool.not_eq_true', beq_iff_eq] at h
  refine ⟨?_, by simp only [onlyEndOccB]; exact h.2⟩
  intro hp
  rcases h.1 with h1 | h1
  · rw [hp] at h1; cases h1
  · exact h1

theorem replaceAllF_noOcc (pat rep : List Char) :
    ∀ (l : List Char) (f : Nat), l.length ≤ f → noOccB pat l = true →
    replaceAllF pat rep f l = l := by
  intro l
  induction l with
  | nil => intro f _ _; cases f <;> rfl
  | cons c rest ih =>
    intro f hf hno
    obtain ⟨h1, h2⟩ := noOccB_head pat c rest hno
    cases f with
    | zero => simp at hf
    | succ f' =>
      have hf' : rest.length ≤ f' := by
        simp only [List.length_cons] at hf; omega
      simp [replaceAllF, h1, ih f' hf' h2]

theorem replaceAllF_endOcc (pat rep : List Char) (hpat : pat ≠ []) :
    ∀ (core : List Char) (f : Nat), (core ++ pat).length ≤ f →
    onlyEndOccB pat (core ++ pat) = true →
    replaceAllF pat rep f (core ++ pat) = core ++ rep := by
  intro core
  induction core with
  | nil =>
    intro f hf _
    obtain ⟨p, pr, rfl⟩ : ∃ p pr, pat = p :: pr := by
      cases pat with
      | nil => exact absurd rfl hpat
      | cons p pr => exact ⟨p, pr, rfl⟩
    cases f with
    | zero => simp at hf
    | succ f' =>
      have hpre : (p :: pr).isPrefixOf (p :: pr) = true := by
        have h := isPrefixOf_append_self (p :: pr) []
        rw [List.append_nil] at h
        exact h
      simp [replaceAllF, hpre, List.drop_length]
  | cons c core' ih =>
    intro f hf hend
    have hend' : onlyEndOccB pat (c :: (core' ++ pat)) = true := by
      simpa using hend
    have hh := onlyEndOccB_head pat c (core' ++ pat) hend'
    have hne : pat.isPrefixOf (c :: (core' ++ pat)) = false := by
      cases hx : pat.isPrefixOf (c :: (core' ++ pat)) with
      | false => rfl
      | true =>
        have heq := hh.1 hx
        have hlen := congrArg List.length heq
        simp [List.length_append] at hlen
        exact absurd hlen (by omega)
    cases f with
    | zero => simp at hf
    | succ f' =>
      have hf' : (core' ++ pat).length ≤ f' := by
        simp only [List.cons_append, List.length_cons] at hf; omega
      simp only [List.cons_append]
      simp only [replaceAllF, hne, Bool.false_eq_true, if_false]
      rw [ih f' hf' hh.2]

theorem replaceAll_consume_head (pat rep rest : List Char) (hpat : pat ≠ [])
    (hno : noOccB pat rest = true) :
    replaceAll pat rep (pat ++ rest) = rep ++ rest := by
  obtain ⟨p, pr, rfl⟩ : ∃ p pr, pat = p :: pr := by
    cases pat with
    | nil => exact absurd rfl hpat
    | cons p pr => exact ⟨p, pr, rfl⟩
  have hlen : ((p :: pr) ++ rest).length = (pr.length + rest.length) + 1 := by
    simp [List.length_append]
  have hpre : (p :: pr).isPrefixOf (p :: (pr ++ rest)) = true := by
    have h := isPrefixOf_append_self (p :: pr) rest
    rw [List.cons_append] at h
    exact h
  have hdrop : List.drop (p :: pr).length (p :: (pr ++ rest)) = rest := by
    simp only [List.length_cons, List.drop_succ_cons]
    exact List.drop_left _ _
  simp only [replaceAll, hlen, List.cons_append]
  simp only [replaceAllF, hpre, if_true]
  rw [hdrop]
  rw [replaceAllF_noOcc (p :: pr) rep rest (pr ++ rest).length
    (by simp [List.length_append]) hno]

theorem replaceAll_consume_end (pat rep core : List Char) (hpat : pat ≠ [])
    (hend : onlyEndOccB pat (core ++ pat) = true) :
    replaceAll pat rep (core ++ pat) = core ++ rep :=
  replaceAllF_endOcc pat rep hpat core _ le_rfl hend

/-! ## Claim C5: correlation-key extraction -/

/-- C5 (amended): for every managed collection name in which the marker
substrings `"Vector_index_"` and `"_Node"` occur only as the mandatory
leading prefix and trailing suffix, the source's `extract_dataset_id`
agrees with the spec's reading (strip the prefix and the suffix once,
split the remaining core on `'_'`, join the first five segments with
`'-'` when at least five remain, else return `"unknown"`).  Extraction
is a pure total Lean function, hence deterministic and never raising. -/
theorem extract_id_agrees_on_clean_names (class_name : String) (core : List Char)
    (hd : class_name.data = pfxVI ++ (core ++ sfxNode))
    (hno : noOccB pfxVI (core ++ sfxNode) = true)
    (hend : onlyEndOccB sfxNode (core ++ sfxNode) = true) :
    extract_dataset_id class_name = extract_dataset_id_spec class_name ∧
    extract_dataset_id class_name =
      (if 5 ≤ (splitSep '_' core).length
       then String.mk (joinSep '-' ((splitSep '_' core).take 5))
       else "unknown") := by
  have hstrip : replaceAll sfxNode [] (replaceAll pfxVI [] class_name.data) = core := by
    rw [hd, replaceAll_consume_head pfxVI [] (core ++ sfxNode) (by decide) hno,
      List.nil_append, replaceAll_consume_end sfxNode [] core (by decide) hend,
      List.append_nil]
  have hspec : stripOnce class_name.data = core := by
    rw [hd]
    have h1 : pfxVI.isPrefixOf (pfxVI ++ (core ++ sfxNode)) = true :=
      isPrefixOf_append_self _ _
    have h2 : List.drop pfxVI.length (pfxVI ++ (core ++ sfxNode)) = core ++ sfxNode :=
      List.drop_left _ _
    have h3 : sfxNode.isSuffixOf (core ++ sfxNode) = true :=
      isSuffixOf_append_self _ _
    have h4 : (core ++ sfxNode).length - sfxNode.length = core.length := by
      simp [List.length_append]
    have h5 : List.take core.length (core ++ sfxNode) = core :=
      List.take_left _ _
    simp only [stripOnce, h1, if_true, h2, h3, h4, h5]
  constructor
  · simp only [extract_dataset_id, extract_dataset_id_spec, hstrip, hspec]
  · simp only [extract_dataset_id, hstrip]

/-- C5 counterexample: `"Vector_index_a_Node_b_c_d_e_Node"` is a managed
name; stripping the fixed prefix and suffix leaves `"a_Node_b_c_d_e"`
with six underscore segments, so the claim requires the key
`"a-Node-b-c-d"`; the source's `extract_dataset_id` (Python
`str.replace` removes the interior `"_Node"` occurrence as well) returns
`"a-b-c-d-e"` instead. -/
theorem extract_id_strip_cex :
    is_dify_collection [("class", JVal.jstr "Vector_index_a_Node_b_c_d_e_Node")] = true ∧
    extract_dataset_id_spec "Vector_index_a_Node_b_c_d_e_Node" = "a-Node-b-c-d" ∧
    extract_dataset_id "Vector_index_a_Node_b_c_d_e_Node" = "a-b-c-d-e" ∧
    extract_dataset_id "Vector_index_a_Node_b_c_d_e_Node" ≠
      extract_dataset_id_spec "Vector_index_a_Node_b_c_d_e_Node" :=
  ⟨by decide, by decide, by decide, by decide⟩

/-- C5 witness: the amended theorem applied to the well-formed managed
name `Vector_index_aaaa_bbbb_cccc_dddd_eeee_Node`. -/
theorem extract_id_agrees_wit :
    "Vector_index_aaaa_bbbb_cccc_dddd_eeee_Node".data =
      pfxVI ++ ("aaaa_bbbb_cccc_dddd_eeee".data ++ sfxNode) ∧
    noOccB pfxVI ("aaaa_bbbb_cccc_dddd_eeee".data ++ sfxNode) = true ∧
    onlyEndOccB sfxNode ("aaaa_bbbb_cccc_dddd_eeee".data ++ sfxNode) = true ∧
    extract_dataset_id "Vector_index_aaaa_bbbb_cccc_dddd_eeee_Node" =
      extract_dataset_id_spec "Vector_index_aaaa_bbbb_cccc_dddd_eeee_Node" :=
  ⟨by decide, by decide, by decide,
   (extract_id_agrees_on_clean_names "Vector_index_aaaa_bbbb_cccc_dddd_eeee_Node"
     "aaaa_bbbb_cccc_dddd_eeee".data (by decide) (by decide) (by decide)).1⟩

/-! ## Claims C2 and C4: cleanup gating and registry-failure safety -/

/-- C2: in every `cleanup_orphaned` execution, a delete call is issued
only if the confirmation answer lowercases to `"yes"` (the prompt is
read before the delete loop); any non-affirmative answer yields zero
delete calls. -/
theorem cleanup_confirmation_gate (env : CleanupEnv) :
    ((cleanup_orphaned env).2 ≠ [] → lowerStr env.confirm = "yes") ∧
    (lowerStr env.confirm ≠ "yes" → (cleanup_orphaned env).2 = []) := by
  unfold cleanup_orphaned
  by_cases hc : env.connOk = true
  · simp only [hc, Bool.not_true, Bool.false_eq_true, if_false]
    by_cases hdb : (get_all_dataset_ids_from_db env.db).isEmpty = true
    · simp [hdb]
    · simp only [hdb, Bool.false_eq_true, if_false]
      by_cases ho :
          (((env.collections.filter is_dify_collection).map
              (fun c => extract_dataset_id (getClass c))).filter
            (fun i => !decide (i ∈ get_all_dataset_ids_from_db env.db))).isEmpty = true
      · simp [ho]
      · simp only [ho, Bool.false_eq_true, if_false]
        by_cases hy : lowerStr env.confirm = "yes"
        · simp [hy]
        · simp [hy]
  · simp only [Bool.not_eq_true] at hc
    simp [hc]

/-- C2 witness: with the answer `"no"`, the gate applies and no delete
call is issued. -/
theorem cleanup_confirmation_gate_wit :
    lowerStr "no" ≠ "yes" ∧
    (cleanup_orphaned
      ⟨true, [[("class", JVal.jstr "Vector_index_x_Node")]], some ["d1"], "no"⟩).2 = [] :=
  ⟨by decide,
   (cleanup_confirmation_gate
     ⟨true, [[("class", JVal.jstr "Vector_index_x_Node")]], some ["d1"], "no"⟩).2
     (by decide)⟩

/-- C4: when the registry read fails (modelled by `db = none`, which the
source converts to an empty id set), `cleanup_orphaned` returns before
computing the orphan set: nothing is identified as orphaned and no
delete call is issued, whatever collections the vector-index service
holds. -/
theorem cleanup_db_failure_safe (env : CleanupEnv) (h : env.db = none) :
    cleanup_orphaned env = ([], []) := by
  unfold cleanup_orphaned
  by_cases hc : env.connOk = true
  · simp [hc, h, get_all_dataset_ids_from_db]
  · simp only [Bool.not_eq_true] at hc
    simp [hc]

/-- C4 witness: a failed registry read with a non-empty Weaviate
inventory still identifies nothing and deletes nothing. -/
theorem cleanup_db_failure_safe_wit :
    (CleanupEnv.db ⟨true,
        [[("class", JVal.jstr "Vector_index_aaaa_bbbb_cccc_dddd_eeee_Node")]],
        none, "yes"⟩) = none ∧
    cleanup_orphaned
      ⟨true, [[("class", JVal.jstr "Vector_index_aaaa_bbbb_cccc_dddd_eeee_Node")]],
        none, "yes"⟩ = ([], []) :=
  ⟨rfl,
   cleanup_db_failure_safe
     ⟨true, [[("class", JVal.jstr "Vector_index_aaaa_bbbb_cccc_dddd_eeee_Node")]],
       none, "yes"⟩ rfl⟩

/-! ## Claim C1: `"unknown"`-keyed collections under cleanup -/

/-- C1 counterexample: the collection `Vector_index_x_Node` derives the
sentinel key `"unknown"`; with a reachable registry whose id set is
`{"d1"}` (so `"unknown"` is absent from it) and an affirmative
confirmation, `cleanup_orphaned` identifies the collection as orphaned
and issues a delete call for it — the source applies the plain set
difference with no special case for the sentinel. -/
theorem cleanup_unknown_key_cex :
    extract_dataset_id "Vector_index_x_Node" = "unknown" ∧
    cleanup_orphaned
        ⟨true, [[("class", JVal.jstr "Vector_index_x_Node")]], some ["d1"], "yes"⟩ =
      (["Vector_index_x_Node"], ["Vector_index_x_Node"]) :=
  ⟨by decide, by decide⟩

/-- C1 (amended): a managed collection whose derived key is `"unknown"`
is spared by `cleanup_orphaned` only when the string `"unknown"` is
itself a member of the registry id set; when the registry read succeeds
with a non-empty id set not containing `"unknown"` and the caller
confirms, the delete call for that collection is issued. -/
theorem cleanup_unknown_key_membership (env : CleanupEnv) (c : Schema) (ids : List String)
    (hconn : env.connOk = true)
    (hdb : env.db = some ids)
    (hmem : c ∈ env.collections)
    (hdify : is_dify_collection c = true)
    (hkey : extract_dataset_id (getClass c) = "unknown") :
    ("unknown" ∈ ids → getClass c ∉ (cleanup_orphaned env).2) ∧
    (ids ≠ [] → "unknown" ∉ ids → lowerStr env.confirm = "yes" →
      getClass c ∈ (cleanup_orphaned env).2) := by
  have hids : get_all_dataset_ids_from_db env.db = ids := by
    rw [hdb]; rfl
  constructor
  · intro hin hdel
    revert hdel
    unfold cleanup_orphaned
    simp only [hconn, hids, Bool.not_true, Bool.false_eq_true, if_false]
    by_cases hdbE : ids.isEmpty = true
    · simp [hdbE]
    · simp only [hdbE, Bool.false_eq_true, if_false]
      by_cases ho :
          (((env.collections.filter is_dify_collection).map
              (fun c => extract_dataset_id (getClass c))).filter
            (fun i => !decide (i ∈ ids))).isEmpty = true
      · simp [ho]
      · simp only [ho, Bool.false_eq_true, if_false]
        by_cases hy : lowerStr env.confirm = "yes"
        · simp only [hy, ne_eq, not_true_eq_false, if_false]
          intro hdel
          obtain ⟨c', hc', hcc⟩ := List.mem_map.mp hdel
          have hpred := (List.mem_filter.mp hc').2
          rw [hcc] at hpred
          rw [hkey] at hpred
          have hu := of_decide_eq_true hpred
          have := (List.mem_filter.mp hu).2
          simp [hin] at this
        · simp [hy]
  · intro hne hnin hy
    have hdbE : ids.isEmpty = false := by
      cases ids with
      | nil => exact absurd rfl hne
      | cons a as => rfl
    have hcmem : c ∈ env.collections.filter is_dify_collection :=
      List.mem_filter.mpr ⟨hmem, hdify⟩
    have hwid : "unknown" ∈
        (env.collections.filter is_dify_collection).map
          (fun c => extract_dataset_id (getClass c)) := by
      rw [← hkey]
      exact List.mem_map_of_mem _ hcmem
    have horph : "unknown" ∈
        ((env.collections.filter is_dify_collection).map
          (fun c => extract_dataset_id (getClass c))).filter
          (fun i => !decide (i ∈ ids)) :=
      List.mem_filter.mpr ⟨hwid, by simp [hnin]⟩
    have ho :
        (((env.collections.filter is_dify_collection).map
            (fun c => extract_dataset_id (getClass c))).filter
          (fun i => !decide (i ∈ ids))).isEmpty = false := by
      cases h : (((env.collections.filter is_dify_collection).map
            (fun c => extract_dataset_id (getClass c))).filter
          (fun i => !decide (i ∈ ids))) with
      | nil => rw [h] at horph; cases horph
      | cons x xs => rfl
    unfold cleanup_orphaned
    simp only [hconn, hids, Bool.not_true, Bool.false_eq_true, if_false, hdbE, ho,
      hy, ne_eq, not_true_eq_false]
    exact List.mem_map_of_mem _
      (List.mem_filter.mpr ⟨hcmem, by rw [hkey]; simp [horph]⟩)

/-- C1 witness: both parts of the amended theorem at the collection
`Vector_index_x_Node` (key `"unknown"`): spared when `"unknown"` is in
the registry id set, deleted when it is not. -/
theorem cleanup_unknown_key_membership_wit :
    (extract_dataset_id "Vector_index_x_Node" = "unknown" ∧
      "Vector_index_x_Node" ∉
        (cleanup_orphaned ⟨true, [[("class", JVal.jstr "Vector_index_x_Node")]],
          some ["unknown", "d1"], "yes"⟩).2) ∧
    "Vector_index_x_Node" ∈
      (cleanup_orphaned ⟨true, [[("class", JVal.jstr "Vector_index_x_Node")]],
        some ["d1"], "yes"⟩).2 :=
  ⟨⟨by decide,
    (cleanup_unknown_key_membership
      ⟨true, [[("class", JVal.jstr "Vector_index_x_Node")]], some ["unknown", "d1"], "yes"⟩
      [("class", JVal.jstr "Vector_index_x_Node")] ["unknown", "d1"]
      rfl rfl (by simp) (by decide) (by decide)).1 (by decide)⟩,
   (cleanup_unknown_key_membership
      ⟨true, [[("class", JVal.jstr "Vector_index_x_Node")]], some ["d1"], "yes"⟩
      [("class", JVal.jstr "Vector_index_x_Node")] ["d1"]
      rfl rfl (by simp) (by decide) (by decide)).2 (by decide) (by decide) (by decide)⟩

/-! ## Claims C6 and C7: schema classification in `scan_collections` -/

/-- C6: for a listed Dify-named collection, a document with the
top-level `"vectorConfig"` key classifies as new-format (Current) no
matter what other keys are present, and a document with
`"vectorIndexConfig"` and without `"vectorConfig"` classifies as
old-format (Legacy). -/
theorem classifier_key_rules (env : ScanEnv) (c : Schema)
    (hconn : env.connOk = true) (hmem : c ∈ env.collections)
    (hdify : is_dify_collection c = true) :
    (hasKey c "vectorConfig" = true →
      is_old_format c = false ∧
      c ∈ (scan_collections env).2 ∧ c ∉ (scan_collections env).1) ∧
    (hasKey c "vectorConfig" = false → hasKey c "vectorIndexConfig" = true →
      is_old_format c = true ∧
      c ∈ (scan_collections env).1 ∧ c ∉ (scan_collections env).2) := by
  have hdmem : c ∈ env.collections.filter is_dify_collection :=
    List.mem_filter.mpr ⟨hmem, hdify⟩
  constructor
  · intro hnew
    have hold : is_old_format c = false := by
      simp [is_old_format, hnew]
    refine ⟨hold, ?_, ?_⟩
    · simp only [scan_collections, hconn, Bool.not_true, Bool.false_eq_true, if_false]
      exact List.mem_filter.mpr ⟨hdmem, by simp [hold]⟩
    · simp only [scan_collections, hconn, Bool.not_true, Bool.false_eq_true, if_false]
      intro hx
      have := (List.mem_filter.mp hx).2
      rw [hold] at this
      cases this
  · intro hnew hleg
    have hold : is_old_format c = true := by
      simp [is_old_format, hnew, hleg]
    refine ⟨hold, ?_, ?_⟩
    · simp only [scan_collections, hconn, Bool.not_true, Bool.false_eq_true, if_false]
      exact List.mem_filter.mpr ⟨hdmem, hold⟩
    · simp only [scan_collections, hconn, Bool.not_true, Bool.false_eq_true, if_false]
      intro hx
      have := (List.mem_filter.mp hx).2
      rw [hold] at this
      cases this

/-- C6 witness: a Dify-named document holding both vector keys is
classified as new-format (the `"vectorConfig"` key wins), and a
document with only the legacy key as old-format. -/
theorem classifier_key_rules_wit :
    (hasKey [("class", JVal.jstr "Vector_index_a_b_c_d_e_Node"),
        ("vectorConfig", JVal.jobj []), ("vectorIndexConfig", JVal.jobj [])]
        "vectorConfig" = true) ∧
    is_old_format [("class", JVal.jstr "Vector_index_a_b_c_d_e_Node"),
        ("vectorConfig", JVal.jobj []), ("vectorIndexConfig", JVal.jobj [])] = false ∧
    [("class", JVal.jstr "Vector_index_a_b_c_d_e_Node"),
        ("vectorConfig", JVal.jobj []), ("vectorIndexConfig", JVal.jobj [])] ∈
      (scan_collections ⟨true,
        [[("class", JVal.jstr "Vector_index_a_b_c_d_e_Node"),
          ("vectorConfig", JVal.jobj []), ("vectorIndexConfig", JVal.jobj [])]]⟩).2 :=
  ⟨by decide,
   ((classifier_key_rules ⟨true,
        [[("class", JVal.jstr "Vector_index_a_b_c_d_e_Node"),
          ("vectorConfig", JVal.jobj []), ("vectorIndexConfig", JVal.jobj [])]]⟩
      [("class", JVal.jstr "Vector_index_a_b_c_d_e_Node"),
        ("vectorConfig", JVal.jobj []), ("vectorIndexConfig", JVal.jobj [])]
      rfl (by simp) (by decide)).1 (by decide)).1,
   ((classifier_key_rules ⟨true,
        [[("class", JVal.jstr "Vector_index_a_b_c_d_e_Node"),
          ("vectorConfig", JVal.jobj []), ("vectorIndexConfig", JVal.jobj [])]]⟩
      [("class", JVal.jstr "Vector_index_a_b_c_d_e_Node"),
        ("vectorConfig", JVal.jobj []), ("vectorIndexConfig", JVal.jobj [])]
      rfl (by simp) (by decide)).1 (by decide)).2.1⟩

/-- C7 counterexample: a Dify-named collection whose document holds
neither `"vectorConfig"` nor `"vectorIndexConfig"` is not excluded by
`scan_collections` — the source's managed-collection test looks only at
the name — and it lands in the new-format (Current) bucket. -/
theorem scan_neither_key_cex :
    hasKey [("class", JVal.jstr "Vector_index_a_b_c_d_e_Node")] "vectorConfig" = false ∧
    hasKey [("class", JVal.jstr "Vector_index_a_b_c_d_e_Node")] "vectorIndexConfig" = false ∧
    is_dify_collection [("class", JVal.jstr "Vector_index_a_b_c_d_e_Node")] = true ∧
    scan_collections ⟨true, [[("class", JVal.jstr "Vector_index_a_b_c_d_e_Node")]]⟩ =
      ([], [[("class", JVal.jstr "Vector_index_a_b_c_d_e_Node")]]) :=
  ⟨by decide, by decide, by decide, by rfl⟩

/-- C7 (amended): collections are excluded from scan classification
solely by the name pattern; a collection whose name fails the pattern
appears in neither bucket, while a Dify-named collection whose document
holds neither vector key is classified as new-format (Current), never
as old-format (Legacy). -/
theorem scan_name_based_exclusion (env : ScanEnv) (c : Schema) :
    (is_dify_collection c = false →
      c ∉ (scan_collections env).1 ∧ c ∉ (scan_collections env).2) ∧
    (env.connOk = true → c ∈ env.collections → is_dify_collection c = true →
      hasKey c "vectorConfig" = false → hasKey c "vectorIndexConfig" = false →
      c ∈ (scan_collections env).2 ∧ c ∉ (scan_collections env).1) := by
  constructor
  · intro hnd
    by_cases hconn : env.connOk = true
    · constructor
      · simp only [scan_collections, hconn, Bool.not_true, Bool.false_eq_true, if_false]
        intro hx
        have := (List.mem_filter.mp (List.mem_filter.mp hx).1).2
        rw [hnd] at this
        cases this
      · simp only [scan_collections, hconn, Bool.not_true, Bool.false_eq_true, if_false]
        intro hx
        have := (List.mem_filter.mp (List.mem_filter.mp hx).1).2
        rw [hnd] at this
        cases this
    · simp only [Bool.not_eq_true] at hconn
      simp [scan_collections, hconn]
  · intro hconn hmem hdify hnew hleg
    have hdmem : c ∈ env.collections.filter is_dify_collection :=
      List.mem_filter.mpr ⟨hmem, hdify⟩
    have hold : is_old_format c = false := by
      simp [is_old_format, hnew, hleg]
    constructor
    · simp only [scan_collections, hconn, Bool.not_true, Bool.false_eq_true, if_false]
      exact List.mem_filter.mpr ⟨hdmem, by simp [hold]⟩
    · simp only [scan_collections, hconn, Bool.not_true, Bool.false_eq_true, if_false]
      intro hx
      have := (List.mem_filter.mp hx).2
      rw [hold] at this
      cases this

/-- C7 witness: the amended theorem applied to a keyless Dify-named
collection (classified Current) and to a non-matching name (excluded
from both buckets). -/
theorem scan_name_based_exclusion_wit :
    (is_dify_collection [("class", JVal.jstr "Article")] = false ∧
      [("class", JVal.jstr "Article")] ∉
        (scan_collections ⟨true, [[("class", JVal.jstr "Article")]]⟩).2) ∧
    [("class", JVal.jstr "Vector_index_a_b_c_d_e_Node")] ∈
      (scan_collections ⟨true, [[("class", JVal.jstr "Vector_index_a_b_c_d_e_Node")]]⟩).2 :=
  ⟨⟨by decide,
    ((scan_name_based_exclusion ⟨true, [[("class", JVal.jstr "Article")]]⟩
        [("class", JVal.jstr "Article")]).1 (by decide)).2⟩,
   ((scan_name_based_exclusion ⟨true, [[("class", JVal.jstr "Vector_index_a_b_c_d_e_Node")]]⟩
        [("class", JVal.jstr "Vector_index_a_b_c_d_e_Node")]).2
      rfl (by simp) (by decide) (by decide) (by decide)).1⟩

/-! ## Claim C9: the translated create payload -/

/-- C9: the schema submitted at the create step keeps the collection
name, carries forward exactly the old property list with the
`"description"` entry removed from each property — every other entry
unchanged and in its original order — and attaches the fixed default
vector-configuration block (`hnsw`, `"cosine"`, literal tuning
constants, vectorizer `{"none": {}}`), which does not depend on the old
schema at all. -/
theorem create_schema_translation (class_name : String) (old_schema : Schema)
    (props : List (List (String × JVal)))
    (hp : lookupKey old_schema "properties" = some (JVal.jarr (props.map JVal.jobj))) :
    lookupKey (new_schema class_name old_schema) "class" = some (JVal.jstr class_name) ∧
    (∃ cleaned : List (List (String × JVal)),
      lookupKey (new_schema class_name old_schema) "properties" =
        some (JVal.jarr (cleaned.map JVal.jobj)) ∧
      cleaned.length = props.length ∧
      (∀ i (hi : i < props.length) (hj : i < cleaned.length),
        List.Sublist (cleaned.get ⟨i, hj⟩) (props.get ⟨i, hi⟩) ∧
        ∀ kv, kv ∈ cleaned.get ⟨i, hj⟩ ↔ (kv ∈ props.get ⟨i, hi⟩ ∧ kv.1 ≠ "description"))) ∧
    lookupKey (new_schema class_name old_schema) "vectorConfig" = some vcDefaultBlock ∧
    (∀ old₂ : Schema, lookupKey (new_schema class_name old₂) "vectorConfig" =
      some vcDefaultBlock) := by
  have hprops : getProps old_schema = props.map JVal.jobj := by
    simp [getProps, hp]
  refine ⟨rfl, ?_, rfl, fun old₂ => rfl⟩
  refine ⟨props.map (fun fields => fields.filter (fun kv => kv.1 != "description")),
    ?_, by simp, ?_⟩
  · show some (JVal.jarr ((getProps old_schema).map cleanProp)) = _
    rw [hprops, List.map_map, List.map_map]
    rfl
  · intro i hi hj
    have hget : (props.map (fun fields =>
        fields.filter (fun kv => kv.1 != "description"))).get ⟨i, hj⟩ =
        (props.get ⟨i, hi⟩).filter (fun kv => kv.1 != "description") := by
      simp [List.get_eq_getElem, List.getElem_map]
    rw [hget]
    refine ⟨List.filter_sublist _, ?_⟩
    intro kv
    simp [List.mem_filter]

/-- C9 witness: the translation theorem applied to a legacy schema with
two properties, each carrying an auto-generated description. -/
theorem create_schema_translation_wit :
    lookupKey
        [("class", JVal.jstr "Vector_index_a_b_c_d_e_Node"),
         ("vectorIndexConfig", JVal.jobj [("distance", JVal.jstr "cosine")]),
         ("properties", JVal.jarr
           ([[("name", JVal.jstr "page_content"), ("dataType", JVal.jarr [JVal.jstr "text"]),
              ("description", JVal.jstr "auto")],
             [("name", JVal.jstr "metadata"), ("description", JVal.jstr "auto")]].map
             JVal.jobj))]
        "properties" =
      some (JVal.jarr
        ([[("name", JVal.jstr "page_content"), ("dataType", JVal.jarr [JVal.jstr "text"]),
           ("description", JVal.jstr "auto")],
          [("name", JVal.jstr "metadata"), ("description", JVal.jstr "auto")]].map
          JVal.jobj)) ∧
    lookupKey
        (new_schema "Vector_index_a_b_c_d_e_Node"
          [("class", JVal.jstr "Vector_index_a_b_c_d_e_Node"),
           ("vectorIndexConfig", JVal.jobj [("distance", JVal.jstr "cosine")]),
           ("properties", JVal.jarr
             ([[("name", JVal.jstr "page_content"), ("dataType", JVal.jarr [JVal.jstr "text"]),
                ("description", JVal.jstr "auto")],
               [("name", JVal.jstr "metadata"), ("description", JVal.jstr "auto")]].map
               JVal.jobj))])
        "class" = some (JVal.jstr "Vector_index_a_b_c_d_e_Node") :=
  ⟨rfl,
   (create_schema_translation "Vector_index_a_b_c_d_e_Node"
      [("class", JVal.jstr "Vector_index_a_b_c_d_e_Node"),
       ("vectorIndexConfig", JVal.jobj [("distance", JVal.jstr "cosine")]),
       ("properties", JVal.jarr
         ([[("name", JVal.jstr "page_content"), ("dataType", JVal.jarr [JVal.jstr "text"]),
            ("description", JVal.jstr "auto")],
           [("name", JVal.jstr "metadata"), ("description", JVal.jstr "auto")]].map
           JVal.jobj))]
      [[("name", JVal.jstr "page_content"), ("dataType", JVal.jarr [JVal.jstr "text"]),
        ("description", JVal.jstr "auto")],
       [("name", JVal.jstr "metadata"), ("description", JVal.jstr "auto")]]
      rfl).1⟩

/-! ## Claims C3, C8, C10: the repair executor -/

/-- Report lines beginning with `marker` (the failure reports of
`fix_single_collection` each start with a distinct fixed marker,
followed by the dynamic response text). -/
def lineHasMarker (marker : String) : Ev → Bool
  | Ev.printed s => marker.data.isPrefixOf s.data
  | _ => false

/-- Whether some report line of the trace starts with `marker`. -/
def hasMarker (t : List Ev) (marker : String) : Bool :=
  t.any (lineHasMarker marker)

/-- C8: when the fetched schema already holds `"vectorConfig"`, the
repair reports the skip line and returns `True` (success), and its only
remote call is the schema fetch — no delete, no create, the remote state
is untouched. -/
theorem repair_skip_already_current (env : FixEnv) (name : String) (s : Schema)
    (hf : env.fetch = FetchRes.ok s) (hcur : hasKey s "vectorConfig" = true) :
    (fix_single_collection env name false).1 = true ∧
    remoteCalls (fix_single_collection env name false).2 = [Ev.fetchSchema name] ∧
    hasMarker (fix_single_collection env name false).2
      "   ✅ Already new format, skipping" = true := by
  obtain ⟨fr, dOk, cOk, ct⟩ := env
  cases hf
  obtain ⟨nd⟩ := name
  refine ⟨?_, ?_, ?_⟩
  · simp [fix_single_collection, hcur]
  · simp [fix_single_collection, hcur, remoteCalls, isRemote]
  · simp only [fix_single_collection, hcur, if_true]
    rfl

/-- C8 witness: a schema that already carries `"vectorConfig"` is
skipped with success and a single fetch call. -/
theorem repair_skip_already_current_wit :
    (FixEnv.fetch ⟨FetchRes.ok [("vectorConfig", JVal.jobj [])], true, true, ""⟩ =
      FetchRes.ok [("vectorConfig", JVal.jobj [])]) ∧
    hasKey [("vectorConfig", JVal.jobj [])] "vectorConfig" = true ∧
    ((fix_single_collection ⟨FetchRes.ok [("vectorConfig", JVal.jobj [])], true, true, ""⟩
        "Vector_index_a_b_c_d_e_Node" false).1 = true ∧
      remoteCalls (fix_single_collection
        ⟨FetchRes.ok [("vectorConfig", JVal.jobj [])], true, true, ""⟩
        "Vector_index_a_b_c_d_e_Node" false).2 =
        [Ev.fetchSchema "Vector_index_a_b_c_d_e_Node"] ∧
      hasMarker (fix_single_collection
        ⟨FetchRes.ok [("vectorConfig", JVal.jobj [])], true, true, ""⟩
        "Vector_index_a_b_c_d_e_Node" false).2
        "   ✅ Already new format, skipping" = true) :=
  ⟨rfl, by decide,
   repair_skip_already_current
     ⟨FetchRes.ok [("vectorConfig", JVal.jobj [])], true, true, ""⟩
     "Vector_index_a_b_c_d_e_Node" [("vectorConfig", JVal.jobj [])] rfl (by decide)⟩

/-- C3: in every real (non-simulated) repair run the remote calls form a
prefix of fetch → delete → create; a delete call appears only when the
fetch returned a schema that is not already Current; a create call
appears only after the delete call succeeded; and when the fetch fails
(non-200 or exception) or the delete fails, no later call of the
sequence is attempted. -/
theorem repair_call_ordering (env : FixEnv) (name : String) :
    (remoteCalls (fix_single_collection env name false).2 = [Ev.fetchSchema name] ∨
     remoteCalls (fix_single_collection env name false).2 =
       [Ev.fetchSchema name, Ev.deleteColl name] ∨
     (∃ s, env.fetch = FetchRes.ok s ∧
       remoteCalls (fix_single_collection env name false).2 =
         [Ev.fetchSchema name, Ev.deleteColl name,
          Ev.createColl name (new_schema name s)])) ∧
    (Ev.deleteColl name ∈ (fix_single_collection env name false).2 →
      ∃ s, env.fetch = FetchRes.ok s ∧ hasKey s "vectorConfig" = false) ∧
    ((∃ p, Ev.createColl name p ∈ (fix_single_collection env name false).2) →
      env.deleteOk = true ∧
      Ev.deleteColl name ∈ (fix_single_collection env name false).2) ∧
    (∀ text, env.fetch = FetchRes.httpErr text →
      remoteCalls (fix_single_collection env name false).2 = [Ev.fetchSchema name]) ∧
    (∀ m, env.fetch = FetchRes.exc m →
      remoteCalls (fix_single_collection env name false).2 = [Ev.fetchSchema name]) ∧
    (env.deleteOk = false →
      ∀ p, Ev.createColl name p ∉ (fix_single_collection env name false).2) := by
  obtain ⟨fr, dOk, cOk, ct⟩ := env
  cases fr with
  | httpErr text =>
    refine ⟨Or.inl ?_, ?_, ?_, ?_, ?_, ?_⟩ <;>
      simp [fix_single_collection, remoteCalls, isRemote]
  | exc m =>
    refine ⟨Or.inl ?_, ?_, ?_, ?_, ?_, ?_⟩ <;>
      simp [fix_single_collection, remoteCalls, isRemote]
  | ok s =>
    by_cases hk : hasKey s "vectorConfig" = true
    · refine ⟨Or.inl ?_, ?_, ?_, ?_, ?_, ?_⟩ <;>
        simp [fix_single_collection, remoteCalls, isRemote, hk]
    · rw [Bool.not_eq_true] at hk
      cases dOk with
      | false =>
        refine ⟨Or.inr (Or.inl ?_), ?_, ?_, ?_, ?_, ?_⟩ <;>
          simp [fix_single_collection, remoteCalls, isRemote, hk]
      | true =>
        cases cOk with
        | false =>
          refine ⟨Or.inr (Or.inr ⟨s, rfl, ?_⟩), ?_, ?_, ?_, ?_, ?_⟩ <;>
            simp [fix_single_collection, remoteCalls, isRemote, hk]
        | true =>
          refine ⟨Or.inr (Or.inr ⟨s, rfl, ?_⟩), ?_, ?_, ?_, ?_, ?_⟩ <;>
            simp [fix_single_collection, remoteCalls, isRemote, hk]

/-- C3 witness: in a full successful run the create call is present, and
the theorem yields that the delete call succeeded and preceded it. -/
theorem repair_call_ordering_wit :
    (∃ p, Ev.createColl "Vector_index_a_b_c_d_e_Node" p ∈
      (fix_single_collection
        ⟨FetchRes.ok [("vectorIndexConfig", JVal.jobj [])], true, true, "ok"⟩
        "Vector_index_a_b_c_d_e_Node" false).2) ∧
    ((FixEnv.deleteOk
        ⟨FetchRes.ok [("vectorIndexConfig", JVal.jobj [])], true, true, "ok"⟩) = true ∧
      Ev.deleteColl "Vector_index_a_b_c_d_e_Node" ∈
        (fix_single_collection
          ⟨FetchRes.ok [("vectorIndexConfig", JVal.jobj [])], true, true, "ok"⟩
          "Vector_index_a_b_c_d_e_Node" false).2) :=
  ⟨⟨new_schema "Vector_index_a_b_c_d_e_Node" [("vectorIndexConfig", JVal.jobj [])],
    by
      have hk : hasKey [("vectorIndexConfig", JVal.jobj [])] "vectorConfig" = false := by
        decide
      simp [fix_single_collection, hk]⟩,
   (repair_call_ordering
      ⟨FetchRes.ok [("vectorIndexConfig", JVal.jobj [])], true, true, "ok"⟩
      "Vector_index_a_b_c_d_e_Node").2.2.1
     ⟨new_schema "Vector_index_a_b_c_d_e_Node" [("vectorIndexConfig", JVal.jobj [])],
      by
        have hk : hasKey [("vectorIndexConfig", JVal.jobj [])] "vectorConfig" = false := by
          decide
        simp [fix_single_collection, hk]⟩⟩

/-- A report line built as `marker ++ text` starts with `marker`. -/
theorem lineHasMarker_append (m : String) (cd : List Char) :
    lineHasMarker m (Ev.printed (m ++ String.mk cd)) = true := by
  show m.data.isPrefixOf (m ++ String.mk cd).data = true
  have hd : (m ++ String.mk cd).data = m.data ++ cd := by
    obtain ⟨md⟩ := m
    rfl
  rw [hd]
  exact isPrefixOf_append_self _ _

/-- C10: each repair failure mode is reported with its own fixed marker
line — `"   ❌ Create failed: "` when the delete succeeded and the
create failed, `"   ❌ Delete failed"` when the delete failed,
`"   ❌ Failed: "` / `"   ❌ Error: "` when the initial fetch failed —
and no run carries the marker of a different failure mode, so the three
outcomes are pairwise distinguishable from the report. -/
theorem repair_error_distinguishable (env : FixEnv) (name : String) (s : Schema) :
    (env.fetch = FetchRes.ok s → hasKey s "vectorConfig" = false →
     env.deleteOk = true → env.createOk = false →
      (fix_single_collection env name false).1 = false ∧
      hasMarker (fix_single_collection env name false).2 "   ❌ Create failed: " = true ∧
      hasMarker (fix_single_collection env name false).2 "   ❌ Delete failed" = false ∧
      hasMarker (fix_single_collection env name false).2 "   ❌ Failed: " = false ∧
      hasMarker (fix_single_collection env name false).2 "   ❌ Error: " = false) ∧
    (env.fetch = FetchRes.ok s → hasKey s "vectorConfig" = false →
     env.deleteOk = false →
      (fix_single_collection env name false).1 = false ∧
      hasMarker (fix_single_collection env name false).2 "   ❌ Delete failed" = true ∧
      hasMarker (fix_single_collection env name false).2 "   ❌ Create failed: " = false ∧
      hasMarker (fix_single_collection env name false).2 "   ❌ Failed: " = false ∧
      hasMarker (fix_single_collection env name false).2 "   ❌ Error: " = false) ∧
    (∀ text, env.fetch = FetchRes.httpErr text →
      (fix_single_collection env name false).1 = false ∧
      hasMarker (fix_single_collection env name false).2 "   ❌ Failed: " = true ∧
      hasMarker (fix_single_collection env name false).2 "   ❌ Delete failed" = false ∧
      hasMarker (fix_single_collection env name false).2 "   ❌ Create failed: " = false) ∧
    (∀ m, env.fetch = FetchRes.exc m →
      (fix_single_collection env name false).1 = false ∧
      hasMarker (fix_single_collection env name false).2 "   ❌ Error: " = true ∧
      hasMarker (fix_single_collection env name false).2 "   ❌ Delete failed" = false ∧
      hasMarker (fix_single_collection env name false).2 "   ❌ Create failed: " = false) := by
  obtain ⟨fr, dOk, cOk, ct⟩ := env
  obtain ⟨nd⟩ := name
  obtain ⟨cd⟩ := ct
  refine ⟨?_, ?_, ?_, ?_⟩
  · intro hf hk hd hc
    subst hf
    subst hd
    subst hc
    refine ⟨?_, ?_, ?_, ?_, ?_⟩
    · simp only [fix_single_collection, hk, Bool.false_eq_true, if_false]
      rfl
    · simp only [fix_single_collection, hk, Bool.false_eq_true, if_false, hasMarker]
      apply List.any_eq_true.mpr
      exact ⟨Ev.printed ("   ❌ Create failed: " ++ String.mk cd), by simp,
        lineHasMarker_append _ _⟩
    · simp only [fix_single_collection, hk, Bool.false_eq_true, if_false]
      rfl
    · simp only [fix_single_collection, hk, Bool.false_eq_true, if_false]
      rfl
    · simp only [fix_single_collection, hk, Bool.false_eq_true, if_false]
      rfl
  · intro hf hk hd
    subst hf
    subst hd
    refine ⟨?_, ?_, ?_, ?_, ?_⟩ <;>
      simp only [fix_single_collection, hk, Bool.false_eq_true, if_false] <;> rfl
  · intro text hf
    subst hf
    obtain ⟨td⟩ := text
    refine ⟨rfl, ?_, rfl, rfl⟩
    show (fix_single_collection
        ⟨FetchRes.httpErr (String.mk td), dOk, cOk, String.mk cd⟩
        (String.mk nd) false).2.any (lineHasMarker "   ❌ Failed: ") = true
    apply List.any_eq_true.mpr
    refine ⟨Ev.printed ("   ❌ Failed: " ++ String.mk td), ?_, lineHasMarker_append _ _⟩
    simp [fix_single_collection]
  · intro m hf
    subst hf
    obtain ⟨md⟩ := m
    refine ⟨rfl, ?_, rfl, rfl⟩
    show (fix_single_collection
        ⟨FetchRes.exc (String.mk md), dOk, cOk, String.mk cd⟩
        (String.mk nd) false).2.any (lineHasMarker "   ❌ Error: ") = true
    apply List.any_eq_true.mpr
    refine ⟨Ev.printed ("   ❌ Error: " ++ String.mk md), ?_, lineHasMarker_append _ _⟩
    simp [fix_single_collection]

/-- C10 witness: a run whose delete succeeded and whose create failed
reports the create marker and neither of the other failure markers. -/
theorem repair_error_distinguishable_wit :
    (FixEnv.fetch ⟨FetchRes.ok [("vectorIndexConfig", JVal.jobj [])], true, false, "boom"⟩ =
      FetchRes.ok [("vectorIndexConfig", JVal.jobj [])]) ∧
    hasKey [("vectorIndexConfig", JVal.jobj [])] "vectorConfig" = false ∧
    ((fix_single_collection
        ⟨FetchRes.ok [("vectorIndexConfig", JVal.jobj [])], true, false, "boom"⟩
        "Vector_index_a_b_c_d_e_Node" false).1 = false ∧
      hasMarker (fix_single_collection
        ⟨FetchRes.ok [("vectorIndexConfig", JVal.jobj [])], true, false, "boom"⟩
        "Vector_index_a_b_c_d_e_Node" false).2 "   ❌ Create failed: " = true ∧
      hasMarker (fix_single_collection
        ⟨FetchRes.ok [("vectorIndexConfig", JVal.jobj [])], true, false, "boom"⟩
        "Vector_index_a_b_c_d_e_Node" false).2 "   ❌ Delete failed" = false ∧
      hasMarker (fix_single_collection
        ⟨FetchRes.ok [("vectorIndexConfig", JVal.jobj [])], true, false, "boom"⟩
        "Vector_index_a_b_c_d_e_Node" false).2 "   ❌ Failed: " = false ∧
      hasMarker (fix_single_collection
        ⟨FetchRes.ok [("vectorIndexConfig", JVal.jobj [])], true, false, "boom"⟩
        "Vector_index_a_b_c_d_e_Node" false).2 "   ❌ Error: " = false) :=
  ⟨rfl, by decide,
   (repair_error_distinguishable
      ⟨FetchRes.ok [("vectorIndexConfig", JVal.jobj [])], true, false, "boom"⟩
      "Vector_index_a_b_c_d_e_Node" [("vectorIndexConfig", JVal.jobj [])]).1
     rfl (by decide) rfl rfl⟩
